import Mathlib

/-!
Shallow embedding of the Light-Pollution Raster Query Engine from
`src/map_app/models/optimal_locations.py`, together with theorems that check
the natural-language specification against the code.

Conventions of the embedding:
* Python floats are modelled as exact rationals (`ℚ`); Python ints as `ℤ`/`ℕ`.
* Python's built-in `round` (banker's rounding, half to even) is `pyRound`.
* The trigonometric ingredients (`math.cos` of the center latitude and the
  haversine formula of `_haversine_grid`) are not rational-valued, so the
  search engine is parameterised over them (`cosR`, `hav`); every theorem
  below holds for all instantiations, in particular for the real cosine and
  haversine.
* The mutable instance state of `OptimalLocationFinder` (`self._map_cache`)
  is passed explicitly as a `CacheState`; raised exceptions are `Except.error`.
* The raster produced by `PIL.Image.open(...).convert("RGB")` plus
  `np.array` is modelled as a total pixel function `ℤ → ℤ → RGB`
  (row index first, as in `map_array[y, x]`), and the file system as a
  partial map from file names to rasters.
-/

/-- An RGB triple; each channel is a Python int. -/
def RGB : Type := ℤ × ℤ × ℤ

instance : DecidableEq RGB := by unfold RGB; infer_instance

/-- A loaded raster: pixel lookup `img y x`, mirroring `map_array[y, x]`. -/
def Raster : Type := ℤ → ℤ → RGB

/-- Python's built-in `round` on an exact rational: round half to even. -/
def pyRound (q : ℚ) : ℤ :=
  let f := ⌊q⌋
  let r := q - f
  if r < 1/2 then f
  else if 1/2 < r then f + 1
  else if f % 2 = 0 then f else f + 1

/-- A region record, as built by `_get_region_info` from a `CONTINENTS` row
`[lon_min, lat_min, lon_max, lat_max, width, height, filename]`. -/
structure Region where
  name : String
  lon_min : ℚ
  lat_min : ℚ
  lon_max : ℚ
  lat_max : ℚ
  width : ℤ
  height : ℤ
  filename : String
deriving DecidableEq

/-- The `CONTINENTS` entry for North America. -/
def northAmerica : Region := ⟨"North America", -180, 7, -51, 75, 15480, 8160, "NorthAmerica2024.png"⟩

/-- The `CONTINENTS` entry for South America. -/
def southAmerica : Region := ⟨"South America", -93, -57, -33, 14, 7200, 8520, "SouthAmerica2024.png"⟩

/-- The `CONTINENTS` entry for Europe. -/
def europe : Region := ⟨"Europe", -32, 34, 70, 75, 12240, 4920, "Europe2024.png"⟩

/-- The `CONTINENTS` entry for Africa. -/
def africa : Region := ⟨"Africa", -26, -36, 64, 38, 10800, 8800, "Africa2024.png"⟩

/-- The `CONTINENTS` entry for Asia. -/
def asia : Region := ⟨"Asia", 60, 5, 180, 75, 14400, 8400, "Asia2024.png"⟩

/-- The `CONTINENTS` entry for Australia. -/
def australia : Region := ⟨"Australia", 94, -48, 180, 8, 10320, 6720, "Australia2024.png"⟩

/-- The `CONTINENTS` table, in its Python insertion (iteration) order. -/
def CONTINENTS : List Region :=
  [northAmerica, southAmerica, europe, africa, asia, australia]

/-- The containment test of `_get_region_info`:
`lat_min <= latitude <= lat_max and lon_min <= longitude <= lon_max`. -/
def containsPoint (r : Region) (lat lon : ℚ) : Bool :=
  decide (r.lat_min ≤ lat) && decide (lat ≤ r.lat_max) &&
    decide (r.lon_min ≤ lon) && decide (lon ≤ r.lon_max)

/-- The `for name, values in CONTINENTS.items()` loop of `_get_region_info`:
return the first region containing the point, else fall through. -/
def scanRegions : List Region → ℚ → ℚ → Option Region
  | [], _, _ => none
  | r :: rest, lat, lon =>
      if containsPoint r lat lon then some r else scanRegions rest lat lon

/-- `_get_region_info(latitude, longitude)`. -/
def get_region_info (lat lon : ℚ) : Option Region :=
  scanRegions CONTINENTS lat lon

/-- The `LIGHT_POLLUTION_SCALE` dict as an ordered association list
(Python dicts iterate in insertion order). -/
def LIGHT_POLLUTION_SCALE : List (RGB × ℚ) :=
  [((0, 0, 0), 0),
   ((34, 34, 34), 1),
   ((66, 66, 66), 3/2),
   ((20, 47, 114), 2),
   ((33, 84, 216), 5/2),
   ((15, 87, 20), 3),
   ((31, 161, 42), 7/2),
   ((110, 100, 30), 4),
   ((184, 166, 37), 9/2),
   ((191, 100, 30), 5),
   ((253, 150, 80), 11/2),
   ((251, 90, 73), 6),
   ((251, 153, 138), 13/2),
   ((160, 160, 160), 7),
   ((242, 242, 242), 15/2)]

/-- `sum((a - b) ** 2 for a, b in zip(rgb, color))`: squared Euclidean RGB
distance. -/
def sqDist (a b : RGB) : ℤ :=
  (a.1 - b.1) ^ 2 + (a.2.1 - b.2.1) ^ 2 + (a.2.2 - b.2.2) ^ 2

/-- The comparison `distance < min_distance` of `_get_light_pollution_level`,
where `min_distance` starts as `float('inf')` (modelled by `none`). -/
def distLtMin (d : ℤ) : Option ℤ → Bool
  | none => true
  | some m => decide (d < m)

/-- The scan loop of `_get_light_pollution_level`: state is
`(min_distance, closest_level)`. -/
def classifyGo (rgb : RGB) : List (RGB × ℚ) → Option ℤ → ℚ → ℚ
  | [], _, closest => closest
  | e :: rest, m, closest =>
      if distLtMin (sqDist rgb e.1) m
      then classifyGo rgb rest (some (sqDist rgb e.1)) e.2
      else classifyGo rgb rest m closest

/-- `_get_light_pollution_level(rgb)`: nearest scale color's level, starting
from `min_distance = inf`, `closest_level = 4`. -/
def classify (rgb : RGB) : ℚ :=
  classifyGo rgb LIGHT_POLLUTION_SCALE none 4

/-- Written from the spec's words, for comparison with `classify`: the level
of the first scale entry whose squared RGB distance is minimal, with a
mid-scale default for an empty scale. -/
def classify_spec (rgb : RGB) : ℚ :=
  match LIGHT_POLLUTION_SCALE.find?
      (fun e => LIGHT_POLLUTION_SCALE.all
        (fun e2 => decide (sqDist rgb e.1 ≤ sqDist rgb e2.1))) with
  | some e => e.2
  | none => 4

/-- The body of `_latlon_to_pixel(latitude, longitude, region)`, with the
third argument bound to the name `region` that the body reads and that every
caller passes.  (The declared Python parameter list
`(latitude, longitude, map_bounds, image_shape)` is inconsistent with both
the body and the call sites; see the theorem on the failing input below.) -/
def latlon_to_pixel (lat lon : ℚ) (region : Region) : ℤ × ℤ :=
  let x := (lon - region.lon_min) / (region.lon_max - region.lon_min) * (region.width - 1)
  let y := (region.lat_max - lat) / (region.lat_max - region.lat_min) * (region.height - 1)
  (min (max (pyRound x) 0) (region.width - 1),
   min (max (pyRound y) 0) (region.height - 1))

/-- `_pixel_to_latlon(x, y, region)`: the geographic center of pixel
`(x, y)`; the same formula builds the `lon_vals`/`lat_vals` grids inside
`find_optimal_locations`. -/
def pixel_to_latlon (x y : ℤ) (region : Region) : ℚ × ℚ :=
  (region.lat_max - (y + 1/2) / region.height * (region.lat_max - region.lat_min),
   region.lon_min + (x + 1/2) / region.width * (region.lon_max - region.lon_min))

/-- The exceptions `_load_map_for_region` can raise: `ValueError` for an
uncovered coordinate, `FileNotFoundError` for a missing map file. -/
inductive MapError where
  | valueError
  | fileNotFound
deriving DecidableEq

/-- The mutable state of an `OptimalLocationFinder`: the `_map_cache` dict
keyed by region name, plus a log of the disk reads performed so far (one
entry per `Image.open`). -/
structure CacheState where
  cache : List (String × (Raster × Region))
  reads : List String

/-- Dict lookup in the `_map_cache` association list. -/
def cacheLookup : List (String × (Raster × Region)) → String → Option (Raster × Region)
  | [], _ => none
  | (k, v) :: rest, key => if k = key then some v else cacheLookup rest key

/-- `_load_map_for_region(latitude, longitude)` with the file system
abstracted as `storage` (maps a filename to its decoded RGB raster, `none`
when the file is missing).  The dimension check only logs a warning, so it
has no semantic effect here. -/
def load_map_for_region (storage : String → Option Raster) (lat lon : ℚ)
    (st : CacheState) : Except MapError ((Raster × Region) × CacheState) :=
  match get_region_info lat lon with
  | none => .error .valueError
  | some region =>
    match cacheLookup st.cache region.name with
    | some v => .ok (v, st)
    | none =>
      match storage region.filename with
      | none => .error .fileNotFound
      | some img =>
        .ok ((img, region),
             ⟨(region.name, (img, region)) :: st.cache, st.reads ++ [region.filename]⟩)

/-- `get_light_pollution_at(latitude, longitude)`: load the map, project the
coordinate to a pixel, classify its color. -/
def get_light_pollution_at (storage : String → Option Raster) (lat lon : ℚ)
    (st : CacheState) : Except MapError (ℚ × CacheState) :=
  match load_map_for_region storage lat lon st with
  | .error e => .error e
  | .ok ((img, region), st1) =>
    let p := latlon_to_pixel lat lon region
    .ok (classify (img p.2 p.1), st1)

/-- Lines 93–95 of the source: the pollution level of the center pixel
(the baseline that candidates must beat). -/
def center_level_of (img : Raster) (region : Region) (clat clon : ℚ) : ℚ :=
  classify (img (latlon_to_pixel clat clon region).2 (latlon_to_pixel clat clon region).1)

/-- `np.arange(a, b + 1)` as a list of integers. -/
def intRange (a b : ℤ) : List ℤ :=
  (List.range (b + 1 - a).toNat).map (fun i => a + (i : ℤ))

/-- All pixels of the search window in row-major order (`y` outer, `x`
inner), the order in which `np.where` enumerates a mask. -/
def windowPoints (xmin xmax ymin ymax : ℤ) : List (ℤ × ℤ) :=
  (intRange ymin ymax).flatMap (fun y => (intRange xmin xmax).map (fun x => (x, y)))

/-- One candidate pixel of the search window: its pixel-center coordinates,
its haversine distance from the query center, and its raster color. -/
structure Cand where
  lat : ℚ
  lon : ℚ
  dist : ℚ
  rgb : RGB
deriving DecidableEq

/-- Build the candidate record of pixel `p = (x, y)`:
the `lat_grid`/`lon_grid`/`distances`/`window` entries at that pixel. -/
def mkCand (hav : ℚ → ℚ → ℚ → ℚ → ℚ) (img : Raster) (region : Region)
    (clat clon : ℚ) (p : ℤ × ℤ) : Cand :=
  ⟨(pixel_to_latlon p.1 p.2 region).1,
   (pixel_to_latlon p.1 p.2 region).2,
   hav clat clon (pixel_to_latlon p.1 p.2 region).1 (pixel_to_latlon p.1 p.2 region).2,
   img p.2 p.1⟩

/-- Lines 98–111 of the source: the search bounding box in pixels,
`(x_min, x_max, y_min, y_max)` after the min/max normalisation.
`cosR` abstracts `math.cos(math.radians(center_lat))`. -/
def searchWindow (cosR : ℚ → ℚ) (region : Region) (clat clon radius : ℚ) :
    ℤ × ℤ × ℤ × ℤ :=
  let lat_delta := radius / 111
  let lon_delta := radius / (111 * max (1/10) (cosR clat))
  let slat_min := max region.lat_min (clat - lat_delta)
  let slat_max := min region.lat_max (clat + lat_delta)
  let slon_min := max region.lon_min (clon - lon_delta)
  let slon_max := min region.lon_max (clon + lon_delta)
  let p1 := latlon_to_pixel slat_max slon_min region
  let p2 := latlon_to_pixel slat_min slon_max region
  (min p1.1 p2.1, max p1.1 p2.1, min p1.2 p2.2, max p1.2 p2.2)

/-- All candidate records of the search window. -/
def windowCands (cosR : ℚ → ℚ) (hav : ℚ → ℚ → ℚ → ℚ → ℚ) (img : Raster)
    (region : Region) (clat clon radius : ℚ) : List Cand :=
  (windowPoints (searchWindow cosR region clat clon radius).1
      (searchWindow cosR region clat clon radius).2.1
      (searchWindow cosR region clat clon radius).2.2.1
      (searchWindow cosR region clat clon radius).2.2.2).map
    (mkCand hav img region clat clon)

/-- Line 131: `within_radius_mask = distances <= radius_km`. -/
def withinRadius (cosR : ℚ → ℚ) (hav : ℚ → ℚ → ℚ → ℚ → ℚ) (img : Raster)
    (region : Region) (clat clon radius : ℚ) : List Cand :=
  (windowCands cosR hav img region clat clon radius).filter
    (fun c => decide (c.dist ≤ radius))

/-- Lines 140–148: classify the retained pixels and keep those strictly
better (darker) than the center's baseline level. -/
def qualifying (cosR : ℚ → ℚ) (hav : ℚ → ℚ → ℚ → ℚ → ℚ) (img : Raster)
    (region : Region) (clat clon radius : ℚ) : List (Cand × ℚ) :=
  ((withinRadius cosR hav img region clat clon radius).map
      (fun c => (c, classify c.rgb))).filter
    (fun c => decide (c.2 < center_level_of img region clat clon))

/-- The sort key of `np.lexsort((valid_distances, valid_levels))`: pollution
level ascending, ties broken by distance ascending. -/
def candLe (a b : Cand × ℚ) : Prop :=
  a.2 < b.2 ∨ (a.2 = b.2 ∧ a.1.dist ≤ b.1.dist)

instance : DecidableRel candLe := fun a b => by
  unfold candLe; infer_instance

/-- Python's `round(q, 2)` on an exact rational (half to even). -/
def round2 (q : ℚ) : ℚ :=
  (pyRound (q * 100) : ℚ) / 100

/-- A returned location record (lines 158–171); the constant
`cloudiness_percent`/`moon_brightness` zeros are omitted. -/
structure SearchResult where
  name : String
  latitude : ℚ
  longitude : ℚ
  distance_km : ℚ
  light_pollution_index : ℚ
  bortle_score : ℚ
  conditions : String
deriving DecidableEq

/-- The record built for one selected candidate at a given 1-based rank. -/
def mkResult (rank : ℕ) (c : Cand × ℚ) : SearchResult :=
  ⟨"Low-light spot #" ++ toString rank, c.1.lat, c.1.lon, c.1.dist,
   round2 c.2, round2 c.2, "Lower light pollution compared to center"⟩

/-- The `for rank, idx in enumerate(selected_indices, start=1)` loop. -/
def buildResults : ℕ → List (Cand × ℚ) → List SearchResult
  | _, [] => []
  | rank, c :: rest => mkResult rank c :: buildResults (rank + 1) rest

/-- Lines 92–173 of `find_optimal_locations`: the search over a loaded
raster (everything after region resolution and map loading). -/
def find_optimal_core (cosR : ℚ → ℚ) (hav : ℚ → ℚ → ℚ → ℚ → ℚ) (img : Raster)
    (region : Region) (clat clon radius : ℚ) (topn : ℕ) : List SearchResult :=
  if (searchWindow cosR region clat clon radius).1
        = (searchWindow cosR region clat clon radius).2.1
      ∨ (searchWindow cosR region clat clon radius).2.2.1
        = (searchWindow cosR region clat clon radius).2.2.2 then []
  else if withinRadius cosR hav img region clat clon radius = [] then []
  else if qualifying cosR hav img region clat clon radius = [] then []
  else
    buildResults 1
      ((List.insertionSort candLe (qualifying cosR hav img region clat clon radius)).take topn)

/-- `find_optimal_locations(center_lat, center_lon, radius_km, top_n)`:
resolve the region (empty list when uncovered), load the raster through the
cache, then run the search. -/
def find_optimal_locations (cosR : ℚ → ℚ) (hav : ℚ → ℚ → ℚ → ℚ → ℚ)
    (storage : String → Option Raster) (clat clon radius : ℚ) (topn : ℕ)
    (st : CacheState) : Except MapError (List SearchResult × CacheState) :=
  match get_region_info clat clon with
  | none => .ok ([], st)
  | some _ =>
    match load_map_for_region storage clat clon st with
    | .error e => .error e
    | .ok ((img, region), st1) =>
      .ok (find_optimal_core cosR hav img region clat clon radius topn, st1)

/-- The ordering the spec asserts of the returned sequence: for results
`i < j`, `level[i] < level[j]`, or equal levels and `distance[i] <= distance[j]`. -/
def resLe (a b : SearchResult) : Prop :=
  a.light_pollution_index < b.light_pollution_index ∨
    (a.light_pollution_index = b.light_pollution_index ∧ a.distance_km ≤ b.distance_km)

/-! ## Classifier lemmas (C6, C10) -/

/-- `find?` only depends on the predicate's values on the list. -/
lemma find_congr_mem {α : Type} (p q : α → Bool) :
    ∀ l : List α, (∀ x ∈ l, p x = q x) → l.find? p = l.find? q := by
  intro l
  induction l with
  | nil => intro _; rfl
  | cons a l ih =>
    intro h
    have ha : p a = q a := h a (List.mem_cons_self a l)
    by_cases hq : q a = true
    · rw [List.find?_cons_of_pos _ (ha ▸ hq), List.find?_cons_of_pos _ hq]
    · have hp : ¬p a = true := by rw [ha]; exact hq
      rw [List.find?_cons_of_neg _ hp, List.find?_cons_of_neg _ hq]
      exact ih (fun x hx => h x (List.mem_cons_of_mem a hx))

/-- Every nonempty scale slice has an entry of minimal squared distance. -/
lemma exists_min_entry (rgb : RGB) :
    ∀ l : List (RGB × ℚ), l ≠ [] →
      ∃ x ∈ l, (l.all fun e2 => decide (sqDist rgb x.1 ≤ sqDist rgb e2.1)) = true := by
  intro l
  induction l with
  | nil => intro h; exact absurd rfl h
  | cons a l ih =>
    intro _
    cases l with
    | nil =>
      refine ⟨a, List.mem_cons_self a [], ?_⟩
      simp
    | cons b m =>
      obtain ⟨x, hx, hall⟩ := ih (by simp)
      rw [List.all_eq_true] at hall
      by_cases hax : sqDist rgb a.1 ≤ sqDist rgb x.1
      · refine ⟨a, List.mem_cons_self a (b :: m), ?_⟩
        rw [List.all_eq_true]
        intro e2 he2
        rcases List.mem_cons.mp he2 with h | h
        · subst h; simp
        · have h2 := hall e2 h
          simp only [decide_eq_true_eq] at h2 ⊢
          exact le_trans hax h2
      · refine ⟨x, List.mem_cons_of_mem a hx, ?_⟩
        rw [List.all_eq_true]
        intro e2 he2
        rcases List.mem_cons.mp he2 with h | h
        · subst h
          simp only [decide_eq_true_eq]
          exact le_of_lt (lt_of_not_le hax)
        · exact hall e2 h

/-- Unfolding lemma for one step of the classifier loop. -/
lemma classifyGo_cons (rgb : RGB) (e : RGB × ℚ) (rest : List (RGB × ℚ))
    (m : Option ℤ) (c : ℚ) :
    classifyGo rgb (e :: rest) m c =
      if distLtMin (sqDist rgb e.1) m
      then classifyGo rgb rest (some (sqDist rgb e.1)) e.2
      else classifyGo rgb rest m c := rfl

/-- `find?` on a cons whose head satisfies the predicate. -/
lemma find_cons_pos {α : Type} (p : α → Bool) (a : α) (l : List α) (h : p a = true) :
    (a :: l).find? p = some a := by
  simp only [List.find?, h]

/-- `find?` on a cons whose head fails the predicate. -/
lemma find_cons_neg {α : Type} (p : α → Bool) (a : α) (l : List α) (h : p a = false) :
    (a :: l).find? p = l.find? p := by
  simp only [List.find?, h]

/-- Characterisation of the classifier loop once `min_distance` is finite:
the answer is the level of the first entry strictly beating `d` that is also
minimal over the whole remaining list, or the running `closest_level` when no
entry strictly beats `d`. -/
lemma classifyGo_some_eq (rgb : RGB) :
    ∀ (l : List (RGB × ℚ)) (d : ℤ) (lvl : ℚ),
      classifyGo rgb l (some d) lvl =
        match l.find? (fun e => decide (sqDist rgb e.1 < d) &&
            l.all fun e2 => decide (sqDist rgb e.1 ≤ sqDist rgb e2.1)) with
        | some e => e.2
        | none => lvl := by
  intro l
  induction l with
  | nil => intro d lvl; rfl
  | cons a l ih =>
    intro d lvl
    rw [classifyGo_cons]
    by_cases hlt : sqDist rgb a.1 < d
    · rw [if_pos (by simp [distLtMin, hlt]), ih]
      by_cases hmin : (l.all fun e2 => decide (sqDist rgb a.1 ≤ sqDist rgb e2.1)) = true
      · have hfr : (a :: l).find? (fun e => decide (sqDist rgb e.1 < d) &&
            (a :: l).all fun e2 => decide (sqDist rgb e.1 ≤ sqDist rgb e2.1)) = some a := by
          apply find_cons_pos
          simp only [List.all_cons, Bool.and_eq_true, decide_eq_true_eq]
          exact ⟨hlt, ⟨le_refl _, hmin⟩⟩
        have hfl : l.find? (fun e => decide (sqDist rgb e.1 < sqDist rgb a.1) &&
            l.all fun e2 => decide (sqDist rgb e.1 ≤ sqDist rgb e2.1)) = none := by
          rw [List.find?_eq_none]
          intro x hxl
          have h2 : sqDist rgb a.1 ≤ sqDist rgb x.1 := by
            have h3 := List.all_eq_true.mp hmin x hxl
            simpa using h3
          simp only [Bool.and_eq_true, decide_eq_true_eq, not_and]
          intro hcontra
          exact absurd hcontra (not_lt.mpr h2)
        rw [hfr, hfl]
      · obtain ⟨y, hy, hylt⟩ : ∃ y ∈ l, sqDist rgb y.1 < sqDist rgb a.1 := by
          by_contra hno
          push_neg at hno
          apply hmin
          rw [List.all_eq_true]
          intro x hxl
          simp only [decide_eq_true_eq]
          exact hno x hxl
        have hfr : (a :: l).find? (fun e => decide (sqDist rgb e.1 < d) &&
              (a :: l).all fun e2 => decide (sqDist rgb e.1 ≤ sqDist rgb e2.1))
            = l.find? (fun e => decide (sqDist rgb e.1 < d) &&
              (a :: l).all fun e2 => decide (sqDist rgb e.1 ≤ sqDist rgb e2.1)) := by
          apply find_cons_neg
          rw [Bool.eq_false_iff]
          simp only [ne_eq, List.all_cons, Bool.and_eq_true, decide_eq_true_eq, not_and]
          intro _ _ h3
          exact hmin h3
        have hcongr : l.find? (fun e => decide (sqDist rgb e.1 < sqDist rgb a.1) &&
              l.all fun e2 => decide (sqDist rgb e.1 ≤ sqDist rgb e2.1))
            = l.find? (fun e => decide (sqDist rgb e.1 < d) &&
              (a :: l).all fun e2 => decide (sqDist rgb e.1 ≤ sqDist rgb e2.1)) := by
          apply find_congr_mem
          intro x hxl
          by_cases hall : (l.all fun e2 => decide (sqDist rgb x.1 ≤ sqDist rgb e2.1)) = true
          · have hxy : sqDist rgb x.1 ≤ sqDist rgb y.1 := by
              have h3 := List.all_eq_true.mp hall y hy
              simpa using h3
            have hxa : sqDist rgb x.1 < sqDist rgb a.1 := lt_of_le_of_lt hxy hylt
            simp [List.all_cons, hall, hxa, le_of_lt hxa, lt_trans hxa hlt]
          · have hall2 : (l.all fun e2 => decide (sqDist rgb x.1 ≤ sqDist rgb e2.1)) = false :=
              Bool.eq_false_iff.mpr hall
            simp [List.all_cons, hall2]
        have hsome : (l.find? (fun e => decide (sqDist rgb e.1 < sqDist rgb a.1) &&
            l.all fun e2 => decide (sqDist rgb e.1 ≤ sqDist rgb e2.1))).isSome = true := by
          rw [List.find?_isSome]
          obtain ⟨xm, hxm, hxmall⟩ := exists_min_entry rgb l (List.ne_nil_of_mem hy)
          refine ⟨xm, hxm, ?_⟩
          have hxmy : sqDist rgb xm.1 ≤ sqDist rgb y.1 := by
            have h3 := List.all_eq_true.mp hxmall y hy
            simpa using h3
          simp only [Bool.and_eq_true, decide_eq_true_eq]
          exact ⟨lt_of_le_of_lt hxmy hylt, hxmall⟩
        rw [hfr, ← hcongr]
        obtain ⟨v, hv⟩ := Option.isSome_iff_exists.mp hsome
        rw [hv]
    · rw [if_neg (by simp [distLtMin, hlt]), ih]
      have hfr : (a :: l).find? (fun e => decide (sqDist rgb e.1 < d) &&
            (a :: l).all fun e2 => decide (sqDist rgb e.1 ≤ sqDist rgb e2.1))
          = l.find? (fun e => decide (sqDist rgb e.1 < d) &&
            (a :: l).all fun e2 => decide (sqDist rgb e.1 ≤ sqDist rgb e2.1)) := by
        apply find_cons_neg
        rw [Bool.eq_false_iff]
        simp only [ne_eq, List.all_cons, Bool.and_eq_true, decide_eq_true_eq, not_and]
        intro h1
        exact absurd h1 hlt
      have hcongr : l.find? (fun e => decide (sqDist rgb e.1 < d) &&
            l.all fun e2 => decide (sqDist rgb e.1 ≤ sqDist rgb e2.1))
          = l.find? (fun e => decide (sqDist rgb e.1 < d) &&
            (a :: l).all fun e2 => decide (sqDist rgb e.1 ≤ sqDist rgb e2.1)) := by
        apply find_congr_mem
        intro x hxl
        by_cases hxd : sqDist rgb x.1 < d
        · have hxa : sqDist rgb x.1 ≤ sqDist rgb a.1 :=
            le_trans (le_of_lt hxd) (not_lt.mp hlt)
          simp [List.all_cons, hxd, hxa]
        · simp [List.all_cons, hxd]
      rw [hfr, ← hcongr]

/-- Characterisation of the full classifier loop started at
`min_distance = inf`: the answer is the level of the first entry of minimal
squared distance, or the default when the list is empty. -/
lemma classifyGo_none_eq (rgb : RGB) (l : List (RGB × ℚ)) (lvl : ℚ) :
    classifyGo rgb l none lvl =
      match l.find? (fun e =>
          l.all fun e2 => decide (sqDist rgb e.1 ≤ sqDist rgb e2.1)) with
      | some e => e.2
      | none => lvl := by
  cases l with
  | nil => rfl
  | cons a l =>
    rw [classifyGo_cons, if_pos (by simp [distLtMin]), classifyGo_some_eq]
    by_cases hmin : (l.all fun e2 => decide (sqDist rgb a.1 ≤ sqDist rgb e2.1)) = true
    · have hfr : (a :: l).find? (fun e =>
          (a :: l).all fun e2 => decide (sqDist rgb e.1 ≤ sqDist rgb e2.1)) = some a := by
        apply find_cons_pos
        simp only [List.all_cons, Bool.and_eq_true, decide_eq_true_eq]
        exact ⟨le_refl _, hmin⟩
      have hfl : l.find? (fun e => decide (sqDist rgb e.1 < sqDist rgb a.1) &&
          l.all fun e2 => decide (sqDist rgb e.1 ≤ sqDist rgb e2.1)) = none := by
        rw [List.find?_eq_none]
        intro x hxl
        have h2 : sqDist rgb a.1 ≤ sqDist rgb x.1 := by
          have h3 := List.all_eq_true.mp hmin x hxl
          simpa using h3
        simp only [Bool.and_eq_true, decide_eq_true_eq, not_and]
        intro hcontra
        exact absurd hcontra (not_lt.mpr h2)
      rw [hfr, hfl]
    · obtain ⟨y, hy, hylt⟩ : ∃ y ∈ l, sqDist rgb y.1 < sqDist rgb a.1 := by
        by_contra hno
        push_neg at hno
        apply hmin
        rw [List.all_eq_true]
        intro x hxl
        simp only [decide_eq_true_eq]
        exact hno x hxl
      have hfr : (a :: l).find? (fun e =>
            (a :: l).all fun e2 => decide (sqDist rgb e.1 ≤ sqDist rgb e2.1))
          = l.find? (fun e =>
            (a :: l).all fun e2 => decide (sqDist rgb e.1 ≤ sqDist rgb e2.1)) := by
        apply find_cons_neg
        rw [Bool.eq_false_iff]
        simp only [ne_eq, List.all_cons, Bool.and_eq_true, decide_eq_true_eq, not_and]
        intro _ h3
        exact hmin h3
      have hcongr : l.find? (fun e => decide (sqDist rgb e.1 < sqDist rgb a.1) &&
            l.all fun e2 => decide (sqDist rgb e.1 ≤ sqDist rgb e2.1))
          = l.find? (fun e =>
            (a :: l).all fun e2 => decide (sqDist rgb e.1 ≤ sqDist rgb e2.1)) := by
        apply find_congr_mem
        intro x hxl
        by_cases hall : (l.all fun e2 => decide (sqDist rgb x.1 ≤ sqDist rgb e2.1)) = true
        · have hxy : sqDist rgb x.1 ≤ sqDist rgb y.1 := by
            have h3 := List.all_eq_true.mp hall y hy
            simpa using h3
          have hxa : sqDist rgb x.1 < sqDist rgb a.1 := lt_of_le_of_lt hxy hylt
          simp [List.all_cons, hall, hxa, le_of_lt hxa]
        · have hall2 : (l.all fun e2 => decide (sqDist rgb x.1 ≤ sqDist rgb e2.1)) = false :=
            Bool.eq_false_iff.mpr hall
          simp [List.all_cons, hall2]
      have hsome : (l.find? (fun e => decide (sqDist rgb e.1 < sqDist rgb a.1) &&
          l.all fun e2 => decide (sqDist rgb e.1 ≤ sqDist rgb e2.1))).isSome = true := by
        rw [List.find?_isSome]
        obtain ⟨xm, hxm, hxmall⟩ := exists_min_entry rgb l (List.ne_nil_of_mem hy)
        refine ⟨xm, hxm, ?_⟩
        have hxmy : sqDist rgb xm.1 ≤ sqDist rgb y.1 := by
          have h3 := List.all_eq_true.mp hxmall y hy
          simpa using h3
        simp only [Bool.and_eq_true, decide_eq_true_eq]
        exact ⟨lt_of_le_of_lt hxmy hylt, hxmall⟩
      rw [hfr, ← hcongr]
      obtain ⟨v, hv⟩ := Option.isSome_iff_exists.mp hsome
      rw [hv]

/-- `_get_light_pollution_level` agrees everywhere with the spec's
first-minimizer description. -/
lemma classify_eq_spec (rgb : RGB) : classify rgb = classify_spec rgb :=
  classifyGo_none_eq rgb LIGHT_POLLUTION_SCALE 4

/-- C6: for every RGB triple, `classify` returns the level of the scale
entry minimizing the squared Euclidean RGB distance, breaking ties in favor
of the entry that comes first in the scale's fixed enumeration order (this
is `classify_spec`, written from the spec's words); every exact scale color
classifies to its own level at zero distance. -/
theorem classify_first_nearest : ∀ rgb : RGB,
    classify rgb = classify_spec rgb ∧
      ∀ e ∈ LIGHT_POLLUTION_SCALE, classify e.1 = e.2 ∧ sqDist e.1 e.1 = 0 := by
  intro rgb
  refine ⟨classify_eq_spec rgb, ?_⟩
  intro e he
  fin_cases he <;> exact ⟨rfl, rfl⟩

theorem classify_first_nearest_witness :
    classify (10, 10, 10) = classify_spec (10, 10, 10) ∧
      (classify (0, 0, 0) = 0 ∧ sqDist (0, 0, 0) (0, 0, 0) = 0) :=
  ⟨(classify_first_nearest (10, 10, 10)).1,
   (classify_first_nearest (10, 10, 10)).2 ((0, 0, 0), 0) (by decide)⟩

/-- Whatever the state, the classifier loop answers either with its running
`closest_level` or with the level of some entry of the remaining list. -/
lemma classifyGo_mem (rgb : RGB) :
    ∀ (l : List (RGB × ℚ)) (m : Option ℤ) (lvl : ℚ),
      classifyGo rgb l m lvl = lvl ∨ ∃ e ∈ l, classifyGo rgb l m lvl = e.2 := by
  intro l
  induction l with
  | nil => intro m lvl; left; rfl
  | cons a l ih =>
    intro m lvl
    rw [classifyGo_cons]
    by_cases h : distLtMin (sqDist rgb a.1) m = true
    · rw [if_pos h]
      rcases ih (some (sqDist rgb a.1)) a.2 with h1 | ⟨e, he, h1⟩
      · exact Or.inr ⟨a, List.mem_cons_self a l, h1⟩
      · exact Or.inr ⟨e, List.mem_cons_of_mem a he, h1⟩
    · rw [if_neg h]
      rcases ih m lvl with h1 | ⟨e, he, h1⟩
      · exact Or.inl h1
      · exact Or.inr ⟨e, List.mem_cons_of_mem a he, h1⟩

/-- C10: classification always lands in the fixed 15-entry scale's level set
{0, 1, 1.5, 2, 2.5, 3, 3.5, 4, 4.5, 5, 5.5, 6, 6.5, 7, 7.5}; the mid-scale
initial value 4 can only survive as a final answer because 4 is itself a
scale level. -/
theorem classify_level_mem_scale : ∀ rgb : RGB,
    classify rgb ∈
      ([0, 1, 3/2, 2, 5/2, 3, 7/2, 4, 9/2, 5, 11/2, 6, 13/2, 7, 15/2] : List ℚ) := by
  intro rgb
  rcases classifyGo_mem rgb LIGHT_POLLUTION_SCALE none 4 with h | ⟨e, he, h⟩
  · unfold classify
    rw [h]
    norm_num
  · unfold classify
    rw [h]
    fin_cases he <;> norm_num

/-! ## Projector lemmas (C2, C7) -/

/-- Banker's rounding of a value strictly within a half-unit of the integer
`n` is `n` itself. -/
lemma pyRound_eq_of_near (n : ℤ) (q : ℚ) (h1 : (n : ℚ) - 1/2 < q)
    (h2 : q < (n : ℚ) + 1/2) : pyRound q = n := by
  unfold pyRound
  by_cases hq : (n : ℚ) ≤ q
  · have hf : ⌊q⌋ = n := by
      rw [Int.floor_eq_iff]
      constructor
      · exact hq
      · linarith
    rw [hf]
    have hr : q - (n : ℚ) < 1/2 := by linarith
    rw [if_pos hr]
  · push_neg at hq
    have hf : ⌊q⌋ = n - 1 := by
      rw [Int.floor_eq_iff]
      constructor
      · push_cast
        linarith
      · push_cast
        linarith
    rw [hf]
    have hr1 : ¬(q - ((n - 1 : ℤ) : ℚ) < 1/2) := by
      push_cast
      linarith
    have hr2 : 1/2 < q - ((n - 1 : ℤ) : ℚ) := by
      push_cast
      linarith
    rw [if_neg hr1, if_pos hr2]
    omega

/-- One axis of the round trip: projecting back the center of a valid pixel
index returns exactly that index. -/
lemma roundtrip_axis (w t : ℤ) (hw : 1 ≤ w) (h0 : 0 ≤ t) (h1 : t ≤ w - 1) :
    pyRound (((t : ℚ) + 1/2) * ((w : ℚ) - 1) / w) = t := by
  have hwQ : (0 : ℚ) < (w : ℚ) := by
    have : (1 : ℚ) ≤ (w : ℚ) := by exact_mod_cast hw
    linarith
  have htQ : (0 : ℚ) ≤ (t : ℚ) := by exact_mod_cast h0
  have htw : (t : ℚ) ≤ (w : ℚ) - 1 := by
    have : (t : ℚ) ≤ ((w - 1 : ℤ) : ℚ) := by exact_mod_cast h1
    push_cast at this
    linarith
  apply pyRound_eq_of_near
  · rw [lt_div_iff₀ hwQ]
    nlinarith
  · rw [div_lt_iff₀ hwQ]
    nlinarith

/-- The exact round-trip identity behind C7: for any pixel of a well-formed
region, `latlon_to_pixel` of `pixel_to_latlon` is the identity. -/
lemma latlon_roundtrip_exact (region : Region) (x y : ℤ)
    (hlon : region.lon_min < region.lon_max) (hlat : region.lat_min < region.lat_max)
    (hw : 1 ≤ region.width) (hh : 1 ≤ region.height)
    (hx0 : 0 ≤ x) (hx1 : x ≤ region.width - 1)
    (hy0 : 0 ≤ y) (hy1 : y ≤ region.height - 1) :
    latlon_to_pixel (pixel_to_latlon x y region).1 (pixel_to_latlon x y region).2 region
      = (x, y) := by
  have hwQ : (0 : ℚ) < (region.width : ℚ) := by
    have : (1 : ℚ) ≤ (region.width : ℚ) := by exact_mod_cast hw
    linarith
  have hhQ : (0 : ℚ) < (region.height : ℚ) := by
    have : (1 : ℚ) ≤ (region.height : ℚ) := by exact_mod_cast hh
    linarith
  have hlonne : region.lon_max - region.lon_min ≠ 0 := ne_of_gt (by linarith)
  have hlatne : region.lat_max - region.lat_min ≠ 0 := ne_of_gt (by linarith)
  unfold latlon_to_pixel pixel_to_latlon
  have hxval : (region.lon_min + ((x : ℚ) + 1/2) / (region.width : ℚ)
        * (region.lon_max - region.lon_min) - region.lon_min)
        / (region.lon_max - region.lon_min) * ((region.width : ℚ) - 1)
      = ((x : ℚ) + 1/2) * ((region.width : ℚ) - 1) / (region.width : ℚ) := by
    field_simp
    ring
  have hyval : (region.lat_max - (region.lat_max - ((y : ℚ) + 1/2) / (region.height : ℚ)
        * (region.lat_max - region.lat_min)))
        / (region.lat_max - region.lat_min) * ((region.height : ℚ) - 1)
      = ((y : ℚ) + 1/2) * ((region.height : ℚ) - 1) / (region.height : ℚ) := by
    field_simp
    ring
  simp only
  rw [hxval, hyval, roundtrip_axis region.width x hw hx0 hx1,
    roundtrip_axis region.height y hh hy0 hy1]
  rw [max_eq_left hx0, min_eq_left hx1, max_eq_left hy0, min_eq_left hy1]

/-- C7: for every region with a well-formed bounding box and raster size and
every valid pixel coordinate (in particular every interior one), projecting
the pixel's geographic center back to pixel coordinates lands within ±1
pixel of the original coordinate (in fact exactly on it). -/
theorem pixel_roundtrip_within_one (region : Region) (x y : ℤ)
    (hlon : region.lon_min < region.lon_max) (hlat : region.lat_min < region.lat_max)
    (hw : 1 ≤ region.width) (hh : 1 ≤ region.height)
    (hx0 : 0 ≤ x) (hx1 : x ≤ region.width - 1)
    (hy0 : 0 ≤ y) (hy1 : y ≤ region.height - 1) :
    ((latlon_to_pixel (pixel_to_latlon x y region).1 (pixel_to_latlon x y region).2 region).1
        - x).natAbs ≤ 1 ∧
    ((latlon_to_pixel (pixel_to_latlon x y region).1 (pixel_to_latlon x y region).2 region).2
        - y).natAbs ≤ 1 := by
  rw [latlon_roundtrip_exact region x y hlon hlat hw hh hx0 hx1 hy0 hy1]
  simp

theorem pixel_roundtrip_within_one_witness :
    ((latlon_to_pixel (pixel_to_latlon 7 11 northAmerica).1
        (pixel_to_latlon 7 11 northAmerica).2 northAmerica).1 - 7).natAbs ≤ 1 ∧
    ((latlon_to_pixel (pixel_to_latlon 7 11 northAmerica).1
        (pixel_to_latlon 7 11 northAmerica).2 northAmerica).2 - 11).natAbs ≤ 1 :=
  pixel_roundtrip_within_one northAmerica 7 11 (by decide) (by decide) (by decide)
    (by decide) (by decide) (by decide) (by decide) (by decide)

/-- C2 (the projection the callers and the body jointly specify, evaluated
at the input on which the real Python callable fails): the rounded, clamped
projection maps (40°N, 100°W) in North America to pixel (9599, 4199).  The
Python method itself cannot return this: its parameter list
`(latitude, longitude, map_bounds, image_shape)` does not match the
3-argument call sites (a `TypeError`), and its body reads the undefined
name `region` (a `NameError` even for a 4-argument call). -/
theorem latlon_to_pixel_intended_at_failing_input :
    latlon_to_pixel 40 (-100) northAmerica = (9599, 4199) := by
  norm_num [latlon_to_pixel, pyRound, northAmerica]

/-! ## Region resolver lemmas (C8) -/

/-- The containment test unfolds to the four inclusive comparisons. -/
lemma containsPoint_iff (r : Region) (lat lon : ℚ) :
    containsPoint r lat lon = true ↔
      (r.lat_min ≤ lat ∧ lat ≤ r.lat_max ∧ r.lon_min ≤ lon ∧ lon ≤ r.lon_max) := by
  simp [containsPoint, and_assoc]

/-- The scan returns `none` exactly when no region contains the point. -/
lemma scanRegions_eq_none (lat lon : ℚ) :
    ∀ l : List Region,
      (scanRegions l lat lon = none ↔ ∀ r ∈ l, containsPoint r lat lon = false) := by
  intro l
  induction l with
  | nil => simp [scanRegions]
  | cons a l ih =>
    by_cases h : containsPoint a lat lon = true
    · simp [scanRegions, h]
    · have hf : containsPoint a lat lon = false := Bool.eq_false_iff.mpr h
      simp [scanRegions, hf, ih]

/-- The scan returns the first region (in list order) containing the point. -/
lemma scanRegions_first (lat lon : ℚ) :
    ∀ (l : List Region) (i : ℕ) (hi : i < l.length),
      containsPoint (l.get ⟨i, hi⟩) lat lon = true →
      (∀ (j : ℕ) (hj : j < l.length), j < i →
          containsPoint (l.get ⟨j, hj⟩) lat lon = false) →
      scanRegions l lat lon = some (l.get ⟨i, hi⟩) := by
  intro l
  induction l with
  | nil => intro i hi; exact absurd hi (Nat.not_lt_zero i)
  | cons a l ih =>
    intro i hi hc hfirst
    cases i with
    | zero =>
      simp only [List.get] at hc
      simp [scanRegions, hc]
    | succ n =>
      have ha : containsPoint a lat lon = false :=
        hfirst 0 (Nat.succ_pos _) (Nat.succ_pos n)
      have hstep : scanRegions (a :: l) lat lon = scanRegions l lat lon := by
        simp [scanRegions, ha]
      rw [hstep]
      exact ih n (Nat.lt_of_succ_lt_succ hi) hc
        (fun j hj hlt => hfirst (j + 1) (Nat.succ_lt_succ hj) (Nat.succ_lt_succ hlt))

/-- C8: `_get_region_info` scans the catalog in its fixed order and returns
the first region whose bounding box contains the point, with inclusive
bounds on all four sides, and `none` when no region contains it. -/
theorem region_resolver_first_match : ∀ lat lon : ℚ,
    ((get_region_info lat lon = none) ↔
        ∀ r ∈ CONTINENTS, containsPoint r lat lon = false) ∧
    (∀ (i : ℕ) (hi : i < CONTINENTS.length),
        containsPoint (CONTINENTS.get ⟨i, hi⟩) lat lon = true →
        (∀ (j : ℕ) (hj : j < CONTINENTS.length), j < i →
            containsPoint (CONTINENTS.get ⟨j, hj⟩) lat lon = false) →
        get_region_info lat lon = some (CONTINENTS.get ⟨i, hi⟩)) ∧
    (∀ r : Region, containsPoint r lat lon = true ↔
        (r.lat_min ≤ lat ∧ lat ≤ r.lat_max ∧ r.lon_min ≤ lon ∧ lon ≤ r.lon_max)) :=
  fun lat lon =>
    ⟨scanRegions_eq_none lat lon CONTINENTS,
     fun i hi => scanRegions_first lat lon CONTINENTS i hi,
     fun r => containsPoint_iff r lat lon⟩

theorem region_resolver_first_match_witness :
    get_region_info 35 0 = some europe :=
  (region_resolver_first_match 35 0).2.1 2 (by decide) (by decide) (by decide)

/-! ## Witness fixtures: a tiny raster and file system used only to
instantiate the universally quantified theorems at concrete inputs. -/

/-- A 4×4 test region used to instantiate search theorems. -/
def tRegion : Region := ⟨"Test", 0, 0, 4, 4, 4, 4, "test.png"⟩

/-- A stand-in for `math.cos(math.radians(lat))`. -/
def tCos : ℚ → ℚ := fun _ => 1

/-- A stand-in haversine returning distance 0 everywhere. -/
def tHav : ℚ → ℚ → ℚ → ℚ → ℚ := fun _ _ _ _ => 0

/-- A raster that is brightest at pixel (2, 2) and darkest elsewhere. -/
def tImg : Raster := fun y x => if y == 2 && x == 2 then (242, 242, 242) else (0, 0, 0)

/-- An all-black raster. -/
def wRaster : Raster := fun _ _ => (0, 0, 0)

/-- A file system where every file decodes to the all-black raster. -/
def wStorage : String → Option Raster := fun _ => some wRaster

/-- The state of a fresh `OptimalLocationFinder`. -/
def emptyCache : CacheState := ⟨[], []⟩

/-- The cache state after loading the North America map once. -/
def naCache : CacheState :=
  ⟨[("North America", (wRaster, northAmerica))], ["NorthAmerica2024.png"]⟩

/-! ## Raster cache (C9) -/

/-- C9: a successful load leaves the cache in a state from which the same
request returns the very same raster (hence pixel-identical) and the very
same state — in particular no further storage read is logged, so each
region is read from storage at most once. -/
theorem map_cache_idempotent :
    ∀ (storage : String → Option Raster) (lat lon : ℚ) (st : CacheState)
      (v : Raster × Region) (st1 : CacheState),
      load_map_for_region storage lat lon st = .ok (v, st1) →
      load_map_for_region storage lat lon st1 = .ok (v, st1) := by
  intro storage lat lon st v st1 h
  unfold load_map_for_region at h ⊢
  cases hr : get_region_info lat lon with
  | none =>
    rw [hr] at h
    simp at h
  | some region =>
    rw [hr] at h
    dsimp only at h ⊢
    cases hc : cacheLookup st.cache region.name with
    | some v0 =>
      rw [hc] at h
      dsimp only at h
      simp only [Except.ok.injEq, Prod.mk.injEq] at h
      obtain ⟨hv, hst⟩ := h
      subst hv
      subst hst
      rw [hc]
    | none =>
      rw [hc] at h
      dsimp only at h
      cases hs : storage region.filename with
      | none =>
        rw [hs] at h
        simp at h
      | some img =>
        rw [hs] at h
        dsimp only at h
        simp only [Except.ok.injEq, Prod.mk.injEq] at h
        obtain ⟨hv, hst⟩ := h
        subst hv
        rw [← hst]
        have hlook : cacheLookup ((region.name, (img, region)) :: st.cache) region.name
            = some (img, region) := by
          simp [cacheLookup]
        rw [hlook]

theorem map_cache_idempotent_witness :
    load_map_for_region wStorage 40 (-100) naCache
      = .ok ((wRaster, northAmerica), naCache) :=
  map_cache_idempotent wStorage 40 (-100) emptyCache (wRaster, northAmerica) naCache rfl

/-! ## Coverage miss (C1) -/

/-- C1 counterexample: at the open-ocean point (0°N, 170°W), which lies
outside all six region bounding boxes, `get_light_pollution_at` propagates
the `ValueError` raised by `_load_map_for_region` — the call raises rather
than returning `none`. -/
theorem levelAt_raises_at_open_ocean :
    get_light_pollution_at wStorage 0 (-170) emptyCache
      = .error MapError.valueError := rfl

/-- C1 (amended): for every point outside all six region bounding boxes,
`find_optimal_locations` returns the empty list without touching the cache,
while `get_light_pollution_at` raises `ValueError` (it does not return a
`none`-like level). -/
theorem uncovered_point_behavior :
    ∀ (cosR : ℚ → ℚ) (hav : ℚ → ℚ → ℚ → ℚ → ℚ) (storage : String → Option Raster)
      (lat lon radius : ℚ) (topn : ℕ) (st : CacheState),
      get_region_info lat lon = none →
      find_optimal_locations cosR hav storage lat lon radius topn st = .ok ([], st) ∧
        get_light_pollution_at storage lat lon st = .error MapError.valueError := by
  intro cosR hav storage lat lon radius topn st h
  constructor
  · unfold find_optimal_locations
    rw [h]
  · unfold get_light_pollution_at load_map_for_region
    rw [h]

theorem uncovered_point_behavior_witness :
    get_region_info 0 (-170) = none ∧
      (find_optimal_locations tCos tHav wStorage 0 (-170) 50 10 emptyCache
          = .ok ([], emptyCache) ∧
        get_light_pollution_at wStorage 0 (-170) emptyCache
          = .error MapError.valueError) :=
  ⟨rfl, uncovered_point_behavior tCos tHav wStorage 0 (-170) 50 10 emptyCache rfl⟩

/-! ## Search pipeline lemmas (C3, C4, C5) -/

instance : IsTotal (Cand × ℚ) candLe :=
  ⟨by
    intro a b
    rcases lt_trichotomy a.2 b.2 with h | h | h
    · exact Or.inl (Or.inl h)
    · rcases le_total a.1.dist b.1.dist with hd | hd
      · exact Or.inl (Or.inr ⟨h, hd⟩)
      · exact Or.inr (Or.inr ⟨h.symm, hd⟩)
    · exact Or.inr (Or.inl h)⟩

instance : IsTrans (Cand × ℚ) candLe :=
  ⟨by
    intro a b c hab hbc
    rcases hab with h1 | ⟨h1, d1⟩ <;> rcases hbc with h2 | ⟨h2, d2⟩
    · exact Or.inl (lt_trans h1 h2)
    · exact Or.inl (h2 ▸ h1)
    · exact Or.inl (h1 ▸ h2)
    · exact Or.inr ⟨h1.trans h2, le_trans d1 d2⟩⟩

/-- Python's `round(level, 2)` is the identity on every classifier output
(every scale level is a half-integer). -/
lemma round2_classify (rgb : RGB) : round2 (classify rgb) = classify rgb := by
  rcases classifyGo_mem rgb LIGHT_POLLUTION_SCALE none 4 with h | ⟨e, he, h⟩
  · unfold classify
    rw [h]
    norm_num [round2, pyRound]
  · unfold classify
    rw [h]
    fin_cases he <;> norm_num [round2, pyRound]

/-- Each emitted record comes from a candidate of the selected list. -/
lemma mem_buildResults {r : SearchResult} :
    ∀ (n : ℕ) (l : List (Cand × ℚ)), r ∈ buildResults n l →
      ∃ c ∈ l, ∃ k : ℕ, r = mkResult k c := by
  intro n l
  induction l generalizing n with
  | nil => intro h; simp [buildResults] at h
  | cons a l ih =>
    intro h
    simp only [buildResults] at h
    rcases List.mem_cons.mp h with h | h
    · exact ⟨a, List.mem_cons_self a l, n, h⟩
    · obtain ⟨c, hc, k, hk⟩ := ih (n + 1) h
      exact ⟨c, List.mem_cons_of_mem a hc, k, hk⟩

/-- The emitting loop preserves length. -/
lemma buildResults_length :
    ∀ (n : ℕ) (l : List (Cand × ℚ)), (buildResults n l).length = l.length := by
  intro n l
  induction l generalizing n with
  | nil => rfl
  | cons a l ih => simp [buildResults, ih]

/-- The emitting loop turns a list pairwise-sorted for the candidate order
into a record list pairwise-sorted for the result order, because the rank
only affects the display name. -/
lemma pairwise_buildResults
    {S : (Cand × ℚ) → (Cand × ℚ) → Prop}
    (hS : ∀ a b, S a b → ∀ j k : ℕ, resLe (mkResult j a) (mkResult k b)) :
    ∀ (n : ℕ) (l : List (Cand × ℚ)),
      List.Pairwise S l → List.Pairwise resLe (buildResults n l) := by
  intro n l
  induction l generalizing n with
  | nil => intro _; simp [buildResults]
  | cons a l ih =>
    intro hp
    rw [List.pairwise_cons] at hp
    obtain ⟨ha, hl⟩ := hp
    simp only [buildResults]
    rw [List.pairwise_cons]
    constructor
    · intro r hr
      obtain ⟨c, hc, k, hk⟩ := mem_buildResults (n + 1) l hr
      subst hk
      exact hS a c (ha c hc) n k
    · exact ih (n + 1) hl

/-- A qualifying entry pairs a within-radius candidate with its classified
level, and that level is strictly below the center's baseline. -/
lemma mem_qualifying {cosR : ℚ → ℚ} {hav : ℚ → ℚ → ℚ → ℚ → ℚ} {img : Raster}
    {region : Region} {clat clon radius : ℚ} {c : Cand × ℚ}
    (h : c ∈ qualifying cosR hav img region clat clon radius) :
    c.1 ∈ withinRadius cosR hav img region clat clon radius ∧
      c.2 = classify c.1.rgb ∧ c.2 < center_level_of img region clat clon := by
  unfold qualifying at h
  obtain ⟨hm, hp⟩ := List.mem_filter.mp h
  obtain ⟨c0, hc0, heq⟩ := List.mem_map.mp hm
  subst heq
  simp only [decide_eq_true_eq] at hp
  exact ⟨hc0, rfl, hp⟩

/-- A within-radius candidate is a window candidate within the radius. -/
lemma mem_withinRadius {cosR : ℚ → ℚ} {hav : ℚ → ℚ → ℚ → ℚ → ℚ} {img : Raster}
    {region : Region} {clat clon radius : ℚ} {c : Cand}
    (h : c ∈ withinRadius cosR hav img region clat clon radius) :
    c ∈ windowCands cosR hav img region clat clon radius ∧ c.dist ≤ radius := by
  unfold withinRadius at h
  obtain ⟨hm, hp⟩ := List.mem_filter.mp h
  simp only [decide_eq_true_eq] at hp
  exact ⟨hm, hp⟩

/-- A window candidate is the record of some window pixel. -/
lemma mem_windowCands {cosR : ℚ → ℚ} {hav : ℚ → ℚ → ℚ → ℚ → ℚ} {img : Raster}
    {region : Region} {clat clon radius : ℚ} {c : Cand}
    (h : c ∈ windowCands cosR hav img region clat clon radius) :
    ∃ p, c = mkCand hav img region clat clon p := by
  unfold windowCands at h
  obtain ⟨p, _, heq⟩ := List.mem_map.mp h
  exact ⟨p, heq.symm⟩

/-- Every emitted record of the core search comes from a qualifying
candidate. -/
lemma mem_core {cosR : ℚ → ℚ} {hav : ℚ → ℚ → ℚ → ℚ → ℚ} {img : Raster}
    {region : Region} {clat clon radius : ℚ} {topn : ℕ} {r : SearchResult}
    (h : r ∈ find_optimal_core cosR hav img region clat clon radius topn) :
    ∃ c ∈ qualifying cosR hav img region clat clon radius, ∃ k : ℕ, r = mkResult k c := by
  unfold find_optimal_core at h
  split_ifs at h with h1 h2 h3
  · simp at h
  · simp at h
  · simp at h
  · obtain ⟨c, hc, k, hk⟩ := mem_buildResults 1 _ h
    refine ⟨c, ?_, k, hk⟩
    have hc2 := (List.take_sublist _ _).subset hc
    exact (List.perm_insertionSort candLe _).subset hc2

/-- The core search emits at most `top_n` records. -/
lemma core_length (cosR : ℚ → ℚ) (hav : ℚ → ℚ → ℚ → ℚ → ℚ) (img : Raster)
    (region : Region) (clat clon radius : ℚ) (topn : ℕ) :
    (find_optimal_core cosR hav img region clat clon radius topn).length ≤ topn := by
  unfold find_optimal_core
  split_ifs with h1 h2 h3
  · simp
  · simp
  · simp
  · rw [buildResults_length, List.length_take]
    exact min_le_left _ _

/-- The core search's output is pairwise ordered by level, then distance. -/
lemma core_pairwise (cosR : ℚ → ℚ) (hav : ℚ → ℚ → ℚ → ℚ → ℚ) (img : Raster)
    (region : Region) (clat clon radius : ℚ) (topn : ℕ) :
    List.Pairwise resLe (find_optimal_core cosR hav img region clat clon radius topn) := by
  unfold find_optimal_core
  split_ifs with h1 h2 h3
  · simp
  · simp
  · simp
  · have hsorted : List.Pairwise candLe
        (List.insertionSort candLe (qualifying cosR hav img region clat clon radius)) :=
      List.sorted_insertionSort candLe _
    have htake : List.Pairwise candLe
        ((List.insertionSort candLe (qualifying cosR hav img region clat clon radius)).take topn) :=
      hsorted.sublist (List.take_sublist _ _)
    have hmem : ∀ c ∈ (List.insertionSort candLe
        (qualifying cosR hav img region clat clon radius)).take topn,
        round2 c.2 = c.2 := by
      intro c hc
      have hq : c ∈ qualifying cosR hav img region clat clon radius :=
        (List.perm_insertionSort candLe _).subset ((List.take_sublist _ _).subset hc)
      obtain ⟨_, hcl, _⟩ := mem_qualifying hq
      rw [hcl]
      exact round2_classify c.1.rgb
    have hS : List.Pairwise (fun a b : Cand × ℚ =>
        round2 a.2 < round2 b.2 ∨ (round2 a.2 = round2 b.2 ∧ a.1.dist ≤ b.1.dist))
        ((List.insertionSort candLe (qualifying cosR hav img region clat clon radius)).take topn) := by
      refine htake.imp_of_mem ?_
      intro a b ha hb hab
      rw [hmem a ha, hmem b hb]
      exact hab
    refine pairwise_buildResults ?_ 1 _ hS
    intro a b hab j k
    exact hab

/-- C5: `find_optimal_locations` returns at most `top_n` records, sorted by
pollution level ascending with ties broken by distance ascending: for
positions `i < j`, `level[i] < level[j]` or `level[i] = level[j]` and
`distance[i] ≤ distance[j]`. -/
theorem results_sorted_and_bounded :
    ∀ (cosR : ℚ → ℚ) (hav : ℚ → ℚ → ℚ → ℚ → ℚ) (img : Raster) (region : Region)
      (clat clon radius : ℚ) (topn : ℕ),
      (find_optimal_core cosR hav img region clat clon radius topn).length ≤ topn ∧
      ∀ (i j : Fin (find_optimal_core cosR hav img region clat clon radius topn).length),
        i < j →
        resLe ((find_optimal_core cosR hav img region clat clon radius topn).get i)
          ((find_optimal_core cosR hav img region clat clon radius topn).get j) :=
  fun cosR hav img region clat clon radius topn =>
    ⟨core_length cosR hav img region clat clon radius topn,
     fun i j hij =>
       List.pairwise_iff_get.mp (core_pairwise cosR hav img region clat clon radius topn) i j hij⟩

/-- C4: every record returned by the radius search reports as its distance
the haversine value at its own coordinates from the query center, and that
distance never exceeds the requested radius. -/
theorem results_within_radius :
    ∀ (cosR : ℚ → ℚ) (hav : ℚ → ℚ → ℚ → ℚ → ℚ) (img : Raster) (region : Region)
      (clat clon radius : ℚ) (topn : ℕ) (r : SearchResult),
      r ∈ find_optimal_core cosR hav img region clat clon radius topn →
      r.distance_km = hav clat clon r.latitude r.longitude ∧ r.distance_km ≤ radius := by
  intro cosR hav img region clat clon radius topn r h
  obtain ⟨c, hc, k, hk⟩ := mem_core h
  obtain ⟨hw, _, _⟩ := mem_qualifying hc
  obtain ⟨hwc, hdist⟩ := mem_withinRadius hw
  obtain ⟨p, hcp⟩ := mem_windowCands hwc
  subst hk
  constructor
  · show c.1.dist = hav clat clon c.1.lat c.1.lon
    rw [hcp]
    rfl
  · exact hdist

/-- C3: every record returned by the radius search has a pollution level
strictly below the center pixel's baseline level, and when no window pixel
qualifies the search returns the empty list. -/
theorem results_beat_center :
    ∀ (cosR : ℚ → ℚ) (hav : ℚ → ℚ → ℚ → ℚ → ℚ) (img : Raster) (region : Region)
      (clat clon radius : ℚ) (topn : ℕ),
      (∀ r ∈ find_optimal_core cosR hav img region clat clon radius topn,
        r.light_pollution_index < center_level_of img region clat clon) ∧
      (qualifying cosR hav img region clat clon radius = [] →
        find_optimal_core cosR hav img region clat clon radius topn = []) := by
  intro cosR hav img region clat clon radius topn
  constructor
  · intro r h
    obtain ⟨c, hc, k, hk⟩ := mem_core h
    obtain ⟨_, hcl, hlt⟩ := mem_qualifying hc
    subst hk
    show round2 c.2 < center_level_of img region clat clon
    have hid : round2 c.2 = c.2 := by
      rw [hcl]
      exact round2_classify c.1.rgb
    rw [hid]
    exact hlt
  · intro hq
    unfold find_optimal_core
    rw [hq]
    simp

/-! ## Concrete evaluation of the search on the witness fixtures -/

/-- The witness region's center pixel. -/
lemma tw_pix : latlon_to_pixel 2 2 tRegion = (2, 2) := by
  norm_num [latlon_to_pixel, pyRound, tRegion]

/-- The witness search window. -/
lemma tw_win : searchWindow tCos tRegion 2 2 1 = (1, 2, 1, 2) := by
  norm_num [searchWindow, latlon_to_pixel, pyRound, tCos, tRegion]

/-- The witness baseline: the brightest scale level. -/
lemma tw_center : center_level_of tImg tRegion 2 2 = 15/2 := by
  unfold center_level_of
  rw [tw_pix]
  rfl

/-- Black classifies to level 0. -/
lemma tw_cl0 : classify ((0, 0, 0) : ℤ × ℤ × ℤ) = 0 := rfl

/-- Black classifies to level 0 (zero-literal form). -/
lemma tw_cl0z : classify ((0 : ℤ × ℤ × ℤ)) = 0 := rfl

/-- The brightest scale color classifies to level 7.5. -/
lemma tw_cl242 : classify ((242, 242, 242) : ℤ × ℤ × ℤ) = 15/2 := rfl

/-- The witness window pixels in row-major order. -/
lemma tw_pts : windowPoints 1 2 1 2 = [(1, 1), (2, 1), (1, 2), (2, 2)] := rfl

/-- The witness window candidates. -/
lemma tw_cands : windowCands tCos tHav tImg tRegion 2 2 1 =
    [⟨5/2, 3/2, 0, (0, 0, 0)⟩, ⟨5/2, 5/2, 0, (0, 0, 0)⟩,
     ⟨3/2, 3/2, 0, (0, 0, 0)⟩, ⟨3/2, 5/2, 0, (242, 242, 242)⟩] := by
  unfold windowCands
  rw [tw_win]
  dsimp only
  rw [tw_pts]
  norm_num [mkCand, pixel_to_latlon, tHav, tImg, tRegion]

/-- All four candidates are within the witness radius. -/
lemma tw_within : withinRadius tCos tHav tImg tRegion 2 2 1 =
    [⟨5/2, 3/2, 0, (0, 0, 0)⟩, ⟨5/2, 5/2, 0, (0, 0, 0)⟩,
     ⟨3/2, 3/2, 0, (0, 0, 0)⟩, ⟨3/2, 5/2, 0, (242, 242, 242)⟩] := by
  unfold withinRadius
  rw [tw_cands]
  rfl

/-- The three black pixels beat the bright center; the center pixel itself
does not qualify. -/
lemma tw_qual : qualifying tCos tHav tImg tRegion 2 2 1 =
    [(⟨5/2, 3/2, 0, (0, 0, 0)⟩, 0), (⟨5/2, 5/2, 0, (0, 0, 0)⟩, 0),
     (⟨3/2, 3/2, 0, (0, 0, 0)⟩, 0)] := by
  unfold qualifying
  rw [tw_within, tw_center]
  norm_num [List.filter, tw_cl0, tw_cl0z, tw_cl242]

/-- Sorting the witness candidates (all tied) is the identity. -/
lemma tw_sorted : List.insertionSort candLe
    [(⟨5/2, 3/2, 0, (0, 0, 0)⟩, (0 : ℚ)), (⟨5/2, 5/2, 0, (0, 0, 0)⟩, 0),
     (⟨3/2, 3/2, 0, (0, 0, 0)⟩, 0)] =
    [(⟨5/2, 3/2, 0, (0, 0, 0)⟩, (0 : ℚ)), (⟨5/2, 5/2, 0, (0, 0, 0)⟩, 0),
     (⟨3/2, 3/2, 0, (0, 0, 0)⟩, 0)] := by
  rfl

/-- The first witness result record. -/
def tR1 : SearchResult :=
  ⟨"Low-light spot #" ++ toString 1, 5/2, 3/2, 0, 0, 0,
   "Lower light pollution compared to center"⟩

/-- The second witness result record. -/
def tR2 : SearchResult :=
  ⟨"Low-light spot #" ++ toString 2, 5/2, 5/2, 0, 0, 0,
   "Lower light pollution compared to center"⟩

/-- The third witness result record. -/
def tR3 : SearchResult :=
  ⟨"Low-light spot #" ++ toString 3, 3/2, 3/2, 0, 0, 0,
   "Lower light pollution compared to center"⟩

/-- The full witness search output. -/
lemma tw_core : find_optimal_core tCos tHav tImg tRegion 2 2 1 3 = [tR1, tR2, tR3] := by
  unfold find_optimal_core
  rw [tw_win]
  rw [if_neg (by norm_num)]
  rw [tw_within, if_neg (by simp), tw_qual, if_neg (by simp), tw_sorted]
  norm_num [buildResults, mkResult, round2, pyRound, List.take, tR1, tR2, tR3]

theorem results_beat_center_witness :
    tR1 ∈ find_optimal_core tCos tHav tImg tRegion 2 2 1 3 ∧
      tR1.light_pollution_index < center_level_of tImg tRegion 2 2 :=
  have hm : tR1 ∈ find_optimal_core tCos tHav tImg tRegion 2 2 1 3 := by
    rw [tw_core]
    exact List.mem_cons_self _ _
  ⟨hm, (results_beat_center tCos tHav tImg tRegion 2 2 1 3).1 tR1 hm⟩

theorem results_within_radius_witness :
    tR1.distance_km = tHav 2 2 tR1.latitude tR1.longitude ∧ tR1.distance_km ≤ 1 :=
  results_within_radius tCos tHav tImg tRegion 2 2 1 3 tR1
    (by rw [tw_core]; exact List.mem_cons_self _ _)

theorem results_sorted_and_bounded_witness :
    (find_optimal_core tCos tHav tImg tRegion 2 2 1 3).length ≤ 3 ∧
      resLe ((find_optimal_core tCos tHav tImg tRegion 2 2 1 3).get ⟨0, by simp [tw_core]⟩)
        ((find_optimal_core tCos tHav tImg tRegion 2 2 1 3).get ⟨1, by simp [tw_core]⟩) :=
  ⟨(results_sorted_and_bounded tCos tHav tImg tRegion 2 2 1 3).1,
   (results_sorted_and_bounded tCos tHav tImg tRegion 2 2 1 3).2
     ⟨0, by simp [tw_core]⟩ ⟨1, by simp [tw_core]⟩ (Fin.mk_lt_mk.mpr Nat.zero_lt_one)⟩
